import Mathlib

/-!
# Verification of the podcast-collector qualification pipeline

A shallow embedding of the core of the `podcast_collectors` repository:

* `stage2_rss_analyzer.py` — per-year episode-coverage validation (`RSSAnalyzer`),
* `stage3_single_author_filter.py` — heuristic authorship classification
  (`SingleAuthorFilter`),
* `auto_verify_stage2.py` — the automated-verification classifier variant
  (`SingleAuthorAnalyzer`) and the resumable verification cache (`AutoVerifier`).

Python strings are modelled as Lean `String`; Python `str.lower`, `str.split`,
`str.isalpha`, `str.isupper` are modelled by the corresponding ASCII character
operations (every string constant in the relevant source is ASCII).  Python
floats are modelled by `ℚ`: every score constant in the source (0.2, 0.25, 0.3,
0.4, …) is a small decimal and no claim hinges on binary floating-point
rounding.  The external collaborators (feedparser, file I/O) are modelled as
explicit inputs, as the specification directs.
-/

/-- Python's substring test `needle in hay` for `List Char`, prefix position:
`leadsWith n h` is true iff `n` is a prefix of `h`. -/
def leadsWith : List Char → List Char → Bool
  | [], _ => true
  | _ :: _, [] => false
  | c :: n, d :: h => c == d && leadsWith n h

/-- Python's substring test `needle in hay` on character lists: true iff
`n` occurs contiguously inside `h` (the empty needle always matches). -/
def containsSub : List Char → List Char → Bool
  | n, [] => n.isEmpty
  | n, d :: t => leadsWith n (d :: t) || containsSub n t

/-- Python `needle in hay` on strings (`hay` first, mirroring
`indicator in author_lower`). -/
def strContains (hay needle : String) : Bool := containsSub needle.data hay.data

/-- Python `str.lower()` (ASCII). -/
def strLower (s : String) : String := ⟨s.data.map Char.toLower⟩

/-- Python `", ".join(parts)` / `" ".join(parts)`. -/
def joinSep (sep : String) : List String → String
  | [] => ""
  | [x] => x
  | x :: y :: xs => x ++ sep ++ joinSep sep (y :: xs)

/-- Python `str.split()`: split on whitespace runs, producing no empty words
(accumulator holds the current word reversed). -/
def pyWordsAux : List Char → List Char → List (List Char)
  | [], acc => if acc.isEmpty then [] else [acc.reverse]
  | c :: rest, acc =>
    if c.isWhitespace then
      if acc.isEmpty then pyWordsAux rest [] else acc.reverse :: pyWordsAux rest []
    else pyWordsAux rest (c :: acc)

/-- Python `name.split()`. -/
def pyWords (s : String) : List String := (pyWordsAux s.data []).map String.mk

/-- Python `word.rstrip('.')`. -/
def rstripDots (w : String) : String := ⟨(w.data.reverse.dropWhile (· == '.')).reverse⟩

/-- Python `s.isalpha()`: nonempty and every character alphabetic (ASCII). -/
def pyIsAlpha (w : String) : Bool := !w.data.isEmpty && w.data.all Char.isAlpha

/-- Python `s[0].isupper()` guarded by nonemptiness (ASCII). -/
def headIsUpper (w : String) : Bool :=
  match w.data with
  | [] => false
  | c :: _ => c.isUpper

/-- Python `len(name.strip()) == 0` (also true for the empty string). -/
def pyIsBlank (s : String) : Bool := s.data.all Char.isWhitespace

/-- Decimal rendering of a natural number, most significant digit first —
the character list of Python's `str(index)`. -/
def natDigits (n : Nat) : List Char :=
  if n < 10 then [Nat.digitChar n]
  else natDigits (n / 10) ++ [Nat.digitChar (n % 10)]
  termination_by n
  decreasing_by exact Nat.div_lt_self (by omega) (by omega)

/-- Python `str(index)` for a natural index. -/
def pyNatStr (n : Nat) : String := ⟨natDigits n⟩

/-- A candidate record from the discovery stage.  Only the fields the core
reads are modelled; a `none` field models an absent dictionary key (Python
`candidate.get(...)` with its per-call-site default). -/
structure Candidate where
  url : Option String
  title : Option String
  author : Option String
  description : Option String
deriving DecidableEq

/-- `if not rss_url:` — the URL is falsy when absent or empty. -/
def hasUrl (c : Candidate) : Bool :=
  match c.url with
  | none => false
  | some s => !(s == "")

namespace Stage2

/-- A raw link descriptor on a feed entry (`link.get("type"/"href"/"rel", "")`). -/
structure Link where
  type : String
  href : String
  rel : String
deriving DecidableEq

/-- A raw feed entry as handed over by the feed-parsing collaborator.
`publishedParsed` models `entry.get("published_parsed")`: an optional
`(year, month, day, hour, minute, second)` time tuple. -/
structure Entry where
  title : Option String
  published : String
  publishedParsed : Option (Int × Int × Int × Int × Int × Int)
  summary : String
  links : List Link
deriving DecidableEq

/-- The episode dict built by `RSSAnalyzer._parse_episode`. -/
structure Episode where
  title : String
  published : String
  year : Option Int
  hasTranscript : Bool
  transcriptLinks : List String
  summary : String
  links : List Link
deriving DecidableEq

/-- `self.target_years = {2020, 2021, 2022, 2023, 2024}`, iterated in a fixed
order (the set's iteration order only influences the order of the year
fragments inside an issue string, which no claim depends on). -/
def target_years : List Int := [2020, 2021, 2022, 2023, 2024]

def isLeapYear (y : Int) : Bool := y % 4 == 0 && (y % 100 != 0 || y % 400 == 0)

def daysInMonth (y m : Int) : Int :=
  if m == 2 then (if isLeapYear y then 29 else 28)
  else if m == 4 || m == 6 || m == 9 || m == 11 then 30 else 31

/-- `datetime(*published_parsed[:6]).year`; `none` models the `ValueError`
raised (and caught) on an out-of-range field. -/
def datetimeYear : Int × Int × Int × Int × Int × Int → Option Int
  | (y, mo, d, h, mi, s) =>
    if 1 ≤ y ∧ y ≤ 9999 ∧ 1 ≤ mo ∧ mo ≤ 12 ∧ 1 ≤ d ∧ d ≤ daysInMonth y mo ∧
        0 ≤ h ∧ h < 24 ∧ 0 ≤ mi ∧ mi < 60 ∧ 0 ≤ s ∧ s < 60
    then some y else none

def transcriptTypeIndicators : List String := ["text/", "html", "transcript"]

def transcriptHrefIndicators : List String := ["transcript", "text"]

/-- One iteration of the link loop in `_parse_episode` (the lower-cased `rel`
is computed by the source but never used). -/
def transcriptStep (acc : Bool × List String) (link : Link) : Bool × List String :=
  let linkType := strLower link.type
  let href := strLower link.href
  if transcriptTypeIndicators.any (fun i => strContains linkType i) then
    (true, acc.2 ++ [link.href])
  else if transcriptHrefIndicators.any (fun i => strContains href i) then
    (true, acc.2 ++ [link.href])
  else acc

/-- `RSSAnalyzer._parse_episode`. -/
def parse_episode (e : Entry) : Episode :=
  let year := match e.publishedParsed with
    | none => none
    | some t => datetimeYear t
  let tr := e.links.foldl transcriptStep (false, [])
  { title := e.title.getD "No title"
    published := e.published
    year := year
    hasTranscript := tr.1
    transcriptLinks := tr.2
    summary := e.summary
    links := e.links }

abbrev YearBuckets := List (Int × List Episode)

/-- `episodes_by_year = {year: [] for year in self.target_years}`. -/
def initBuckets : YearBuckets := target_years.map (fun y => (y, []))

/-- `episodes_by_year[year].append(episode_info)` on the assoc-list model of
the dict (the key is always present, put there by `initBuckets`). -/
def updateAssoc (d : YearBuckets) (y : Int) (ep : Episode) : YearBuckets :=
  d.map (fun p => if p.1 == y then (p.1, p.2 ++ [ep]) else p)

/-- `episodes_by_year.get(year, ...)` with default `[]` (inside
`analyze_podcast_rss` the dict always has integer keys, so the string-key
fallback in the source is dead code there). -/
def lookupYear (d : YearBuckets) (y : Int) : List Episode :=
  match d.find? (fun p => p.1 == y) with
  | some p => p.2
  | none => []

/-- One iteration of the entry loop in `analyze_podcast_rss` (lines 88–96):
bucket by year, and collect transcript-flagged episodes of target years. -/
def bucketStep (st : YearBuckets × List Episode) (e : Entry) :
    YearBuckets × List Episode :=
  let ep := parse_episode e
  match ep.year with
  | some y =>
    if target_years.contains y then
      (updateAssoc st.1 y ep, if ep.hasTranscript then st.2 ++ [ep] else st.2)
    else st
  | none => st

/-- The state after the entry loop: the year buckets and the
`transcript_episodes` list. -/
def coverageState (entries : List Entry) : YearBuckets × List Episode :=
  entries.foldl bucketStep (initBuckets, [])

/-- `f"{year}({episodes_count}ep)"`. -/
def yearCountStr (y : Int) (n : Nat) : String :=
  toString y ++ "(" ++ toString n ++ "ep)"

/-- `f"{year}({episodes_with_transcripts}tx/{episodes_count}ep)"`. -/
def yearTxStr (y : Int) (tx n : Nat) : String :=
  toString y ++ "(" ++ toString tx ++ "tx/" ++ toString n ++ "ep)"

/-- The `years_insufficient` list of the validation loop (lines 112–125). -/
def years_insufficient (byYear : YearBuckets) : List String :=
  target_years.filterMap (fun y =>
    if (lookupYear byYear y).length < 2 then
      some (yearCountStr y (lookupYear byYear y).length)
    else none)

/-- The `years_insufficient_transcripts` list of the validation loop
(lines 112–129; note the `elif`: a year short on episodes is only reported
in `years_insufficient`). -/
def years_insufficient_transcripts (byYear : YearBuckets) : List String :=
  target_years.filterMap (fun y =>
    if (lookupYear byYear y).length < 2 then none
    else if ((lookupYear byYear y).filter
        (fun ep => ep.hasTranscript)).length < 2 then
      some (yearTxStr y
        ((lookupYear byYear y).filter (fun ep => ep.hasTranscript)).length
        (lookupYear byYear y).length)
    else none)

/-- The dict returned by `RSSAnalyzer.analyze_podcast_rss`.
`has_sufficient_all_years` is `none` on the failure dicts, which omit that
key. -/
structure CoverageResult where
  candidate : Candidate
  rss_available : Bool
  episodes_by_year : YearBuckets
  episodes_2024_count : Nat
  total_target_episodes : Nat
  has_sufficient_2024 : Bool
  has_sufficient_all_years : Option Bool
  transcript_episodes : List Episode
  validation_passed : Bool
  issues : List String
deriving DecidableEq

/-- The failure dict shared by the three failure paths (lines 51–62, 68–81,
185–197): only the issue list differs. -/
def failResult (c : Candidate) (iss : List String) : CoverageResult :=
  { candidate := c, rss_available := false, episodes_by_year := [],
    episodes_2024_count := 0, total_target_episodes := 0,
    has_sufficient_2024 := false, has_sufficient_all_years := none,
    transcript_episodes := [], validation_passed := false, issues := iss }

/-- The success path of `analyze_podcast_rss` (lines 83–183). -/
def successResult (c : Candidate) (entries : List Entry) : CoverageResult :=
  let st := coverageState entries
  let byYear := st.1
  let episodes_2024_count := (lookupYear byYear 2024).length
  let total := (byYear.map (fun p => p.2.length)).sum
  let has2024 := decide (2 ≤ episodes_2024_count)
  let yi := years_insufficient byYear
  let yit := years_insufficient_transcripts byYear
  let allYears := yi.isEmpty && yit.isEmpty
  let issues :=
    (if yi.isEmpty then [] else
      ["Insufficient episodes in years: " ++ joinSep ", " yi ++
        " (need ≥2 each year)"])
    ++ (if yit.isEmpty then
          (if has2024 then [] else
            ["Only " ++ toString episodes_2024_count ++
              " episodes in 2024, need ≥2"])
        else
          ["Insufficient transcripts in years: " ++ joinSep ", " yit ++
            " (need ≥2 with transcripts each year)"])
  { candidate := c, rss_available := true, episodes_by_year := byYear,
    episodes_2024_count := episodes_2024_count, total_target_episodes := total,
    has_sufficient_2024 := has2024, has_sufficient_all_years := some allYears,
    transcript_episodes := st.2, validation_passed := allYears,
    issues := issues }

/-- The outcome of `feedparser.parse(rss_url)` together with anything raised
inside the surrounding `try`: an explicit input, as the spec's collaborator
model directs.  `parsed status entries` models a feed dict with
`feed.get("status")` and `feed.get("entries", [])`; `exn` models an exception
caught by the handler at lines 185–197. -/
inductive FetchResult where
  | parsed (status : Option Int) (entries : List Entry)
  | exn (message : String)
deriving DecidableEq

/-- `feed.get("status", "unknown")` as rendered into the issue string. -/
def statusStr : Option Int → String
  | some n => toString n
  | none => "unknown"

/-- `RSSAnalyzer.analyze_podcast_rss`. -/
def analyze_podcast_rss (c : Candidate) (feed : FetchResult) : CoverageResult :=
  if !(hasUrl c) then failResult c ["No RSS URL provided"]
  else
    match feed with
    | .exn msg => failResult c ["RSS parsing error: " ++ msg]
    | .parsed status entries =>
      if status != some 200 then
        failResult c ["RSS feed returned status " ++ statusStr status]
      else successResult c entries

/-- An episode whose resolved year lies in the target set (the guard of the
bucketing branch). -/
def inTargetYear (ep : Episode) : Bool :=
  match ep.year with
  | some y => target_years.contains y
  | none => false

end Stage2

namespace Stage3

/-- `SingleAuthorFilter.org_indicators` (verbatim list, source order). -/
def org_indicators : List String :=
  [".com", ".fm", ".org", ".net", "llc", "inc", "corp", "company",
   "university", "college", "media company", "network", "studio",
   "radio station", "center", "centre", "institute", "foundation",
   "research center", "salem podcast", "whisper.fm", "solgoodmedia.com",
   "buzzsprout.com", "transistor.fm", "trade canyon", "s&p global",
   "virginia museum", "u.s. army", "christian research", "centre for",
   "wolfram research", "podcast network", "academic network", "media group",
   "broadcasting", "association", "society", "university of", "college of",
   "school of", "capital research center", "church of", "free church",
   "communications", "reformed theological seminary",
   "methodist communications", "baptist college"]

/-- `SingleAuthorFilter.multi_person_indicators` (verbatim, duplicates kept:
the Python loop iterates the list, so a duplicate is penalised twice). -/
def multi_person_indicators : List String :=
  ["&", " and ", ",", "co-", "hosts", "team", "partners", "with",
   "featuring", "/", "&", "mark & adam", "john and jane", "alice & bob",
   "j.c stewart, kenyatta hoskins & mark liddell", "heritage and",
   "research and", "foundation and",
   "crew", "team", "staff", "students", "faculty", "collective",
   "group", "band", "ensemble"]

def single_host_positive : List String :=
  ["solo", "personal", "individual", "my thoughts", "my podcast",
   "monologue", "lecture", "story", "philosophy", "reflection"]

def scripted_indicators : List String :=
  ["written", "script", "prepared", "composed", "authored",
   "structured", "organized", "planned", "narrative", "story",
   "lecture", "episode", "series", "chronicles", "explores",
   "recounts", "presents", "delves", "investigates", "examines",
   "analysis", "reflection", "perspective", "journey", "history"]

def title_words : List String :=
  ["dr.", "prof.", "professor", "pastor", "rev.", "reverend"]

def non_personal_terms : List String :=
  ["podcast", "show", "radio", "broadcast", "media", "network",
   "crew", "team", "staff", "students", "collective", "group",
   "university", "college", "center", "institute", "foundation"]

/-- `SingleAuthorFilter._looks_like_personal_name`. -/
def looks_like_personal_name (name : String) : Bool :=
  if pyIsBlank name then false
  else
    let words0 := pyWords name
    let words :=
      match words0 with
      | [] => words0
      | w :: rest =>
        if title_words.contains (strLower w) && decide (2 ≤ rest.length) then
          rest
        else words0
    if !(decide (2 ≤ words.length) && decide (words.length ≤ 4)) then false
    else if words.any (fun w =>
        let cw := rstripDots w
        !(pyIsAlpha cw) || !(headIsUpper cw)) then false
    else if non_personal_terms.any
        (fun t => strContains (strLower name) t) then false
    else if words.length == 2 then words.all headIsUpper
    else if words.length == 3 then words.all headIsUpper
    else if words.length == 4 then words.all headIsUpper
    else true

/-- The organization indicators matched by the (already lower-cased) author
string — the iterations of the first penalty loop that fire. -/
def orgHits (authorLower : String) : List String :=
  org_indicators.filter (fun i => strContains authorLower i)

def multiHits (authorLower : String) : List String :=
  multi_person_indicators.filter (fun i => strContains authorLower i)

/-- The total organization penalty subtracted by
`SingleAuthorFilter._analyze_author_field`: 0.2 per matched indicator,
with no cap before the final clamp. -/
def orgPenaltyTotal (authorLower : String) : ℚ :=
  (orgHits authorLower).length * (1/5)

/-- The total multi-person penalty subtracted: 0.25 per matched indicator,
with no cap before the final clamp. -/
def multiPenaltyTotal (authorLower : String) : ℚ :=
  (multiHits authorLower).length * (1/4)

/-- `SingleAuthorFilter._analyze_author_field`, returning
(score, appended evidence, appended issues). -/
def analyze_author_field (author : String) : ℚ × List String × List String :=
  if author == "" then (0, [], ["No author field"])
  else
    let authorLower := strLower author
    let issues :=
      (orgHits authorLower).map
        (fun i => "Organization indicator in author: '" ++ i ++ "'")
      ++ (multiHits authorLower).map
        (fun i => "Multi-person indicator in author: '" ++ i ++ "'")
    let score : ℚ :=
      1 - orgPenaltyTotal authorLower - multiPenaltyTotal authorLower
    let score2 := if looks_like_personal_name author then score + 1/5 else score
    let evidence :=
      if looks_like_personal_name author then
        ["Author appears to be personal name: '" ++ author ++ "'"]
      else []
    (max 0 (min 1 score2), evidence, issues)

def multi_host_terms : List String :=
  ["co-host", "hosts", "team", "together", "panel", "multiple hosts",
   "host and", "hosting with", "co-hosting", "joint hosting"]

def ambiguous_terms : List String := ["discussion", "interview", "conversation"]

/-- `SingleAuthorFilter._analyze_single_host_content`. -/
def analyze_single_host_content (title description : String) :
    ℚ × List String × List String :=
  let combined := strLower (title ++ " " ++ description)
  let pos := single_host_positive.filter (fun i => strContains combined i)
  let neg := multi_host_terms.filter (fun t => strContains combined t)
  let amb := ambiguous_terms.filter (fun t => strContains combined t)
  let evidence := pos.map (fun i => "Single host indicator: '" ++ i ++ "'")
  let issues := neg.map (fun t => "Multi-host indicator: '" ++ t ++ "'")
  let total : ℚ := pos.length + neg.length + amb.length * (1/2)
  if total == 0 then (1/2, evidence, issues)
  else
    let adjustedNeg : ℚ := neg.length + amb.length * (1/2)
    (max (1/10) (pos.length / (pos.length + adjustedNeg)), evidence, issues)

/-- `SingleAuthorFilter._analyze_scripted_content`. -/
def analyze_scripted_content (title description : String) :
    ℚ × List String × List String :=
  let combined := strLower (title ++ " " ++ description)
  let hits := scripted_indicators.filter (fun i => strContains combined i)
  let evidence := hits.map (fun i => "Scripted indicator: '" ++ i ++ "'")
  if 3 ≤ hits.length then ((9:ℚ)/10, evidence, [])
  else if 2 ≤ hits.length then (3/4, evidence, [])
  else if hits.length == 1 then (3/5, evidence, [])
  else (1/2, evidence, [])

/-- The dict returned by `SingleAuthorFilter.filter_single_author`. -/
structure ClassificationResult where
  candidate : Candidate
  is_single_host : Bool
  is_scripted : Bool
  is_self_written : Bool
  confidence_score : ℚ
  evidence : List String
  issues : List String
  author_score : ℚ
  single_host_score : ℚ
  scripted_score : ℚ
deriving DecidableEq

/-- `SingleAuthorFilter.filter_single_author`.  The evidence/issue lists are
mutated in call order (author analysis, then single-host, then scripted), so
they concatenate in that order. -/
def filter_single_author (c : Candidate) : ClassificationResult :=
  let title := strLower (c.title.getD "")
  let description := strLower (c.description.getD "")
  let author := strLower (c.author.getD "")
  let ar := analyze_author_field author
  let sr := analyze_single_host_content title description
  let cr := analyze_scripted_content title description
  let is_single_host := decide (ar.1 > 2/5) && decide (sr.1 > 3/10)
  { candidate := c
    is_single_host := is_single_host
    is_scripted := decide (cr.1 > 2/5)
    is_self_written := decide (ar.1 > 3/10) && is_single_host
    confidence_score := ar.1 * (1/2) + sr.1 * (3/10) + cr.1 * (1/5)
    evidence := ar.2.1 ++ sr.2.1 ++ cr.2.1
    issues := ar.2.2 ++ sr.2.2 ++ cr.2.2
    author_score := ar.1
    single_host_score := sr.1
    scripted_score := cr.1 }

end Stage3

namespace AutoVerify

/-- `SingleAuthorAnalyzer.org_indicators` (verbatim, source order; the
duplicate "research center" is kept — the loop penalises it twice). -/
def org_indicators : List String :=
  [".com", ".fm", ".org", ".net", "llc", "inc", "corp", "company",
   "university", "college", "center", "centre", "institute", "foundation",
   "research center", "salem podcast", "whisper.fm", "solgoodmedia.com",
   "buzzsprout.com", "transistor.fm", "trade canyon", "s&p global",
   "virginia museum", "u.s. army", "christian research", "centre for",
   "wolfram research", "podcast network", "academic network", "media group",
   "broadcasting", "association", "society", "university of", "college of",
   "school of", "capital research center", "church of", "free church",
   "communications", "reformed theological seminary",
   "methodist communications", "baptist college", "royal veterinary",
   "london school", "research center", "faculty", "staff", "team", "crew",
   "collective", "group"]

/-- `SingleAuthorAnalyzer.multi_person_indicators` (verbatim, duplicate
"team" kept). -/
def multi_person_indicators : List String :=
  ["&", " and ", ",", "co-", "hosts", "team", "partners", "with",
   "featuring", "/", "mark & adam", "john and jane", "alice & bob",
   "j.c stewart, kenyatta hoskins & mark liddell", "heritage and",
   "research and", "foundation and", "crew", "team", "staff", "students",
   "collective", "group", "band", "ensemble", "friends", "host and",
   "hosting with", "co-hosting", "joint hosting"]

def single_host_positive : List String :=
  ["solo", "personal", "individual", "my thoughts", "my podcast",
   "monologue", "lecture", "story", "philosophy", "reflection"]

def title_words : List String :=
  ["dr.", "prof.", "professor", "pastor", "rev.", "reverend"]

def non_personal_terms : List String :=
  ["podcast", "show", "radio", "broadcast", "media", "network",
   "crew", "team", "staff", "students", "collective", "group",
   "university", "college", "center", "institute", "foundation"]

/-- `SingleAuthorAnalyzer._looks_like_personal_name` (unlike the Stage-3
variant, it ends with `return True` instead of per-length checks). -/
def looks_like_personal_name (name : String) : Bool :=
  if pyIsBlank name then false
  else
    let words0 := pyWords name
    let words :=
      match words0 with
      | [] => words0
      | w :: rest =>
        if title_words.contains (strLower w) && decide (2 ≤ rest.length) then
          rest
        else words0
    if !(decide (2 ≤ words.length) && decide (words.length ≤ 4)) then false
    else if words.any (fun w =>
        let cw := rstripDots w
        !(pyIsAlpha cw) || !(headIsUpper cw)) then false
    else if non_personal_terms.any
        (fun t => strContains (strLower name) t) then false
    else true

def orgHits (authorLower : String) : List String :=
  org_indicators.filter (fun i => strContains authorLower i)

def multiHits (authorLower : String) : List String :=
  multi_person_indicators.filter (fun i => strContains authorLower i)

/-- `org_penalty` accumulated by the loop: 0.3 per matched indicator. -/
def orgPenaltyRaw (authorLower : String) : ℚ :=
  (orgHits authorLower).length * (3/10)

/-- What `score -= min(org_penalty, 0.8)` actually subtracts. -/
def orgPenaltySub (authorLower : String) : ℚ :=
  if orgPenaltyRaw authorLower > 0 then min (orgPenaltyRaw authorLower) (4/5)
  else 0

/-- `multi_penalty` accumulated by the loop: 0.4 per matched indicator. -/
def multiPenaltyRaw (authorLower : String) : ℚ :=
  (multiHits authorLower).length * (2/5)

/-- What `score -= min(multi_penalty, 0.9)` actually subtracts. -/
def multiPenaltySub (authorLower : String) : ℚ :=
  if multiPenaltyRaw authorLower > 0 then
    min (multiPenaltyRaw authorLower) (9/10)
  else 0

/-- `SingleAuthorAnalyzer.analyze_author_field`, returning
(score, evidence, issues). -/
def analyze_author_field (author : String) : ℚ × List String × List String :=
  if author == "" then (0, [], ["No author field provided"])
  else
    let authorLower := strLower author
    let issues :=
      (orgHits authorLower).map
        (fun i => "Organization indicator: '" ++ i ++ "'")
      ++ (multiHits authorLower).map
        (fun i => "Multi-person indicator: '" ++ i ++ "'")
    let score : ℚ :=
      1 - orgPenaltySub authorLower - multiPenaltySub authorLower
    let score2 :=
      if looks_like_personal_name author then score + 3/10 else score
    let evidence :=
      if looks_like_personal_name author then
        ["Personal name pattern: '" ++ author ++ "'"]
      else []
    (max 0 (min 1 score2), evidence, issues)

def multi_host_terms : List String :=
  ["co-host", "hosts", "team", "together", "panel", "multiple hosts",
   "host and", "hosting with", "co-hosting", "joint hosting"]

def ambiguous_terms : List String := ["discussion", "interview", "conversation"]

/-- `SingleAuthorAnalyzer.analyze_content` (same scoring as the Stage-3
single-host analysis, plus a redundant positive-denominator guard). -/
def analyze_content (title description : String) :
    ℚ × List String × List String :=
  let combined := strLower (title ++ " " ++ description)
  let pos := single_host_positive.filter (fun i => strContains combined i)
  let neg := multi_host_terms.filter (fun t => strContains combined t)
  let amb := ambiguous_terms.filter (fun t => strContains combined t)
  let evidence := pos.map (fun i => "Single host indicator: '" ++ i ++ "'")
  let issues := neg.map (fun t => "Multi-host indicator: '" ++ t ++ "'")
  let total : ℚ := pos.length + neg.length + amb.length * (1/2)
  if total == 0 then (1/2, evidence, issues)
  else
    let adjustedNeg : ℚ := neg.length + amb.length * (1/2)
    let score :=
      if pos.length + adjustedNeg > 0 then
        max (1/10) (pos.length / (pos.length + adjustedNeg))
      else 1/2
    (score, evidence, issues)

/-- The `reasoning` dict assembled by `is_single_author`. -/
structure Reasoning where
  author_score : ℚ
  content_score : ℚ
  overall_score : ℚ
  author_evidence : List String
  author_issues : List String
  content_evidence : List String
  content_issues : List String
deriving DecidableEq

/-- `SingleAuthorAnalyzer.is_single_author`: the verdict is a threshold on
the composed score `0.7*author + 0.3*content`. -/
def is_single_author (c : Candidate) : Bool × ℚ × Reasoning :=
  let ar := analyze_author_field (c.author.getD "")
  let cr := analyze_content (c.title.getD "") (c.description.getD "")
  let overall := ar.1 * (7/10) + cr.1 * (3/10)
  (decide (overall > 3/5), overall,
    { author_score := ar.1, content_score := cr.1, overall_score := overall,
      author_evidence := ar.2.1, author_issues := ar.2.2,
      content_evidence := cr.2.1, content_issues := cr.2.2 })

/-- One element of `self.candidates` (a Stage-2 result dict; only its
`"candidate"` entry is read by the verifier). -/
structure VCandidate where
  candidate : Candidate
deriving DecidableEq

/-- The result dict cached by `AutoVerifier.verify_candidate`. -/
structure VerifyResult where
  index : Nat
  title : String
  author : String
  is_single_author : Bool
  confidence : ℚ
  reasoning : Reasoning
  verification_method : String
deriving DecidableEq

/-- The verification cache: a JSON-object-backed insertion-ordered mapping
from string keys to results, modelled as an association list. -/
abbrev Cache := List (String × VerifyResult)

/-- `cache_key in self.cache` (dict key membership). -/
def containsKey (k : String) (cache : Cache) : Bool :=
  cache.any (fun p => p.1 == k)

/-- `self.cache[key] = result` (dict assignment: replace if present, else
append, preserving insertion order). -/
def dictInsert (k : String) (v : VerifyResult) (cache : Cache) : Cache :=
  if containsKey k cache then
    cache.map (fun p => if p.1 == k then (k, v) else p)
  else cache ++ [(k, v)]

/-- `AutoVerifier._get_cache_key`: `f"{index}_{title}_{author}"`, `""` when
the index is out of range. -/
def cacheKey (cands : List VCandidate) (i : Nat) : String :=
  if h : i < cands.length then
    let c := (cands.get ⟨i, h⟩).candidate
    pyNatStr i ++ "_" ++ c.title.getD "" ++ "_" ++ c.author.getD ""
  else ""

/-- `AutoVerifier.get_unverified_candidates`. -/
def get_unverified_candidates (cands : List VCandidate) (cache : Cache) :
    List Nat :=
  (List.range cands.length).filter
    (fun i => !(containsKey (cacheKey cands i) cache))

/-- `AutoVerifier.verify_candidate` (`none` models the empty dict returned
for an out-of-range index, which the caller skips). -/
def verify_candidate (cands : List VCandidate) (i : Nat) :
    Option VerifyResult :=
  if h : i < cands.length then
    let c := (cands.get ⟨i, h⟩).candidate
    let r := is_single_author c
    some { index := i, title := c.title.getD "Unknown",
           author := c.author.getD "N/A",
           is_single_author := r.1, confidence := r.2.1, reasoning := r.2.2,
           verification_method := "automated_analysis" }
  else none

/-- The cache update performed for one candidate inside
`run_verification`'s batch loop (`if result: self.cache[cache_key] = result`;
the periodic `_save_cache` calls persist the full mapping and do not change
it). -/
def verifyStep (cands : List VCandidate) (cache : Cache) (i : Nat) : Cache :=
  match verify_candidate cands i with
  | some r => dictInsert (cacheKey cands i) r cache
  | none => cache

/-- `AutoVerifier.run_verification`, started from a given loaded cache and
run to completion: every unverified candidate is processed in input order
(the batch boundaries only determine when the unchanged-by-save cache is
flushed). -/
def run_verification (cands : List VCandidate) (cache : Cache) : Cache :=
  (get_unverified_candidates cands cache).foldl (verifyStep cands) cache

/-- A run from an empty cache interrupted after `m` candidates have been
processed and flushed (with batch size `b`, an interruption after batch `k`
leaves `m = k * b` processed candidates on disk). -/
def interrupted_run (cands : List VCandidate) (m : Nat) : Cache :=
  ((get_unverified_candidates cands []).take m).foldl (verifyStep cands) []

/-- A default reasoning record, only used to state `entryFor` totally. -/
def dummyReasoning : Reasoning :=
  { author_score := 0, content_score := 0, overall_score := 0,
    author_evidence := [], author_issues := [], content_evidence := [],
    content_issues := [] }

/-- A default result, only used to state `entryFor` totally. -/
def dummyResult : VerifyResult :=
  { index := 0, title := "", author := "", is_single_author := false,
    confidence := 0, reasoning := dummyReasoning, verification_method := "" }

/-- The cache pair written for candidate `j`. -/
def entryFor (cands : List VCandidate) (j : Nat) : String × VerifyResult :=
  (cacheKey cands j, (verify_candidate cands j).getD dummyResult)

end AutoVerify

namespace Stage2

/-- The failure condition of `analyze_podcast_rss`'s guarded paths: a non-200
status or an exception raised during parsing. -/
def fetchFailed : FetchResult → Prop
  | .parsed status _ => status ≠ some 200
  | .exn _ => True

end Stage2

/-- A link whose declared content type marks the episode transcript-present. -/
def wLink : Stage2.Link := { type := "text/html", href := "http://x", rel := "" }

/-- A well-formed feed entry published on Jan 1 of the given year, carrying a
transcript link. -/
def wEntry (y : Int) : Stage2.Entry :=
  { title := some "E", published := "",
    publishedParsed := some (y, 1, 1, 0, 0, 0), summary := "",
    links := [wLink] }

/-- A candidate with a usable RSS URL. -/
def wCand : Candidate :=
  { url := some "http://feed", title := some "T", author := none,
    description := none }

/-- Two transcript-flagged entries in every target year. -/
def wEntries : List Stage2.Entry :=
  [wEntry 2020, wEntry 2020, wEntry 2021, wEntry 2021, wEntry 2022,
   wEntry 2022, wEntry 2023, wEntry 2023, wEntry 2024, wEntry 2024]

/-- A candidate with no RSS URL. -/
def noUrlCand : Candidate :=
  { url := none, title := some "T", author := none, description := none }

/-- An entry with no parsed publish timestamp: its year is unresolvable. -/
def noYearEntry : Stage2.Entry :=
  { title := none, published := "", publishedParsed := none, summary := "",
    links := [] }


/-- The Stage-3 author-classifier counterexample candidate: the author
"Withers" contains the multi-person indicator "with" (author score
0.6 > 0.4) and the empty title/description give the neutral content score
0.5 > 0.3, yet the automated-verification verdict is false because the
composed score 0.7*0.6 + 0.3*0.5 = 0.57 is not above 0.6. -/
def withersCand : Candidate :=
  { url := none, title := some "", author := some "Withers",
    description := some "" }

theorem leadsWith_iff (n h : List Char) :
    leadsWith n h = true ↔ ∃ q, h = n ++ q := by
  induction n generalizing h with
  | nil => simp [leadsWith]
  | cons c n ih =>
    cases h with
    | nil => simp [leadsWith]
    | cons d t =>
      simp only [leadsWith, Bool.and_eq_true, beq_iff_eq, ih, List.cons_append,
        List.cons.injEq]
      constructor
      · rintro ⟨rfl, q, rfl⟩; exact ⟨q, rfl, rfl⟩
      · rintro ⟨q, rfl, rfl⟩; exact ⟨rfl, q, rfl⟩

theorem containsSub_iff (n h : List Char) :
    containsSub n h = true ↔ ∃ p q, h = p ++ n ++ q := by
  induction h with
  | nil =>
    simp only [containsSub, List.isEmpty_iff]
    constructor
    · rintro rfl; exact ⟨[], [], rfl⟩
    · rintro ⟨p, q, hpq⟩
      rcases List.append_eq_nil.mp (List.append_eq_nil.mp hpq.symm).1 with ⟨-, h2⟩
      exact h2
  | cons d t ih =>
    simp only [containsSub, Bool.or_eq_true, leadsWith_iff, ih]
    constructor
    · rintro (⟨q, hq⟩ | ⟨p, q, rfl⟩)
      · exact ⟨[], q, by simp [hq]⟩
      · exact ⟨d :: p, q, by simp⟩
    · rintro ⟨p, q, hpq⟩
      cases p with
      | nil => exact Or.inl ⟨q, by simpa using hpq⟩
      | cons e p =>
        rw [List.cons_append, List.cons_append, List.cons.injEq] at hpq
        exact Or.inr ⟨p, q, hpq.2⟩

theorem strContains_of_parts (pre post : String) (n : String) :
    strContains (pre ++ n ++ post) n = true := by
  rw [strContains, containsSub_iff]
  exact ⟨pre.data, post.data, by simp [String.data_append]⟩

theorem strContains_trans {a b c : String} (h₁ : strContains b a = true)
    (h₂ : strContains c b = true) : strContains c a = true := by
  rw [strContains, containsSub_iff] at h₁ h₂ ⊢
  obtain ⟨p, q, hpq⟩ := h₁
  obtain ⟨r, s, hrs⟩ := h₂
  exact ⟨r ++ p, q ++ s, by rw [hrs, hpq]; simp⟩

theorem strContains_mem_joinSep (sep : String) (l : List String) (s : String)
    (hs : s ∈ l) : strContains (joinSep sep l) s = true := by
  induction l with
  | nil => cases hs
  | cons x xs ih =>
    cases xs with
    | nil =>
      rw [List.mem_singleton] at hs
      subst hs
      rw [joinSep, strContains, containsSub_iff]
      exact ⟨[], [], by simp⟩
    | cons y ys =>
      rw [joinSep]
      rcases List.mem_cons.mp hs with rfl | hmem
      · rw [strContains, containsSub_iff]
        exact ⟨[], (sep ++ joinSep sep (y :: ys)).data, by simp [String.data_append]⟩
      · have htail := ih hmem
        rw [strContains, containsSub_iff] at htail ⊢
        obtain ⟨p, q, hpq⟩ := htail
        exact ⟨(x ++ sep).data ++ p, q, by simp [String.data_append, hpq]⟩

theorem strContains_append_left (a b n : String)
    (h : strContains a n = true) : strContains (a ++ b) n = true := by
  rw [strContains, containsSub_iff] at h ⊢
  obtain ⟨p, q, hpq⟩ := h
  exact ⟨p, q ++ b.data, by simp [String.data_append, hpq]⟩

theorem strContains_append_right (a b n : String)
    (h : strContains b n = true) : strContains (a ++ b) n = true := by
  rw [strContains, containsSub_iff] at h ⊢
  obtain ⟨p, q, hpq⟩ := h
  exact ⟨a.data ++ p, q, by simp [String.data_append, hpq]⟩

theorem digitChar_isDigit : ∀ d, d < 10 → (Nat.digitChar d).isDigit = true := by
  decide

theorem digitChar_inj_lt :
    ∀ a < 10, ∀ b < 10, Nat.digitChar a = Nat.digitChar b → a = b := by
  decide

theorem natDigits_ne_nil (n : Nat) : natDigits n ≠ [] := by
  rw [natDigits]; split <;> simp

theorem natDigits_isDigit (n : Nat) : ∀ c ∈ natDigits n, c.isDigit = true := by
  induction n using Nat.strong_induction_on with
  | _ n ih =>
    rw [natDigits]
    split
    · intro c hc
      rw [List.mem_singleton] at hc
      subst hc
      exact digitChar_isDigit n (by assumption)
    · intro c hc
      rcases List.mem_append.mp hc with h1 | h2
      · exact ih (n / 10) (Nat.div_lt_self (by omega) (by omega)) c h1
      · rw [List.mem_singleton] at h2
        subst h2
        exact digitChar_isDigit _ (Nat.mod_lt _ (by omega))

theorem natDigits_inj : ∀ {m n : Nat}, natDigits m = natDigits n → m = n := by
  intro m
  induction m using Nat.strong_induction_on with
  | _ m ih =>
    intro n h
    have hm' : natDigits m = if m < 10 then [Nat.digitChar m]
        else natDigits (m / 10) ++ [Nat.digitChar (m % 10)] := by
      rw [natDigits]
    have hn' : natDigits n = if n < 10 then [Nat.digitChar n]
        else natDigits (n / 10) ++ [Nat.digitChar (n % 10)] := by
      rw [natDigits]
    rw [hm', hn'] at h
    by_cases hm : m < 10 <;> by_cases hn : n < 10
    · rw [if_pos hm, if_pos hn] at h
      exact digitChar_inj_lt m hm n hn (by simpa using h)
    · rw [if_pos hm, if_neg hn] at h
      have hl := congrArg List.length h
      rw [List.length_singleton, List.length_append, List.length_singleton] at hl
      exact absurd (List.eq_nil_of_length_eq_zero (by omega)) (natDigits_ne_nil (n / 10))
    · rw [if_neg hm, if_pos hn] at h
      have hl := congrArg List.length h
      rw [List.length_singleton, List.length_append, List.length_singleton] at hl
      exact absurd (List.eq_nil_of_length_eq_zero (by omega)) (natDigits_ne_nil (m / 10))
    · rw [if_neg hm, if_neg hn] at h
      have hrev := congrArg List.reverse h
      simp only [List.reverse_append, List.reverse_singleton, List.singleton_append,
        List.cons.injEq] at hrev
      have hmod : m % 10 = n % 10 :=
        digitChar_inj_lt _ (Nat.mod_lt _ (by omega)) _ (Nat.mod_lt _ (by omega)) hrev.1
      have hdiv : m / 10 = n / 10 :=
        ih (m / 10) (Nat.div_lt_self (by omega) (by omega))
          (List.reverse_injective hrev.2)
      omega

theorem digits_sep_inj :
    ∀ (xs ys u v : List Char), (∀ c ∈ xs, c.isDigit = true) →
      (∀ c ∈ ys, c.isDigit = true) → xs ++ '_' :: u = ys ++ '_' :: v → xs = ys := by
  intro xs
  induction xs with
  | nil =>
    intro ys u v _ hys h
    cases ys with
    | nil => rfl
    | cons d ys =>
      rw [List.nil_append, List.cons_append, List.cons.injEq] at h
      have hd := hys d (List.mem_cons_self ..)
      rw [← h.1] at hd
      exact absurd hd (by decide)
  | cons c xs ih =>
    intro ys u v hxs hys h
    cases ys with
    | nil =>
      rw [List.nil_append, List.cons_append, List.cons.injEq] at h
      have hc := hxs c (List.mem_cons_self ..)
      rw [h.1] at hc
      exact absurd hc (by decide)
    | cons d ys =>
      rw [List.cons_append, List.cons_append, List.cons.injEq] at h
      rw [h.1, ih ys u v (fun a ha => hxs a (List.mem_cons_of_mem c ha))
        (fun a ha => hys a (List.mem_cons_of_mem d ha)) h.2]

namespace Stage2

theorem contains_iff_mem_int (l : List Int) (y : Int) :
    l.contains y = true ↔ y ∈ l := by
  simp [List.contains]

theorem updateAssoc_cons (p : Int × List Episode) (t : YearBuckets) (y : Int)
    (ep : Episode) :
    updateAssoc (p :: t) y ep =
      (if p.1 == y then (p.1, p.2 ++ [ep]) else p) :: updateAssoc t y ep := rfl

theorem lookupYear_cons (p : Int × List Episode) (t : YearBuckets) (y : Int) :
    lookupYear (p :: t) y = if p.1 == y then p.2 else lookupYear t y := by
  cases h : (p.1 == y) <;> simp [lookupYear, List.find?_cons, h]

theorem updateAssoc_keys (d : YearBuckets) (y : Int) (ep : Episode) :
    (updateAssoc d y ep).map Prod.fst = d.map Prod.fst := by
  induction d with
  | nil => rfl
  | cons p t ih =>
    rw [updateAssoc_cons, List.map_cons, List.map_cons, ih]
    by_cases h : (p.1 == y) = true
    · rw [if_pos h]
    · rw [if_neg h]

theorem updateAssoc_of_not_mem (d : YearBuckets) (y : Int) (ep : Episode)
    (h : y ∉ d.map Prod.fst) : updateAssoc d y ep = d := by
  induction d with
  | nil => rfl
  | cons p t ih =>
    simp only [List.map_cons, List.mem_cons, not_or] at h
    have hne : (p.1 == y) = false :=
      beq_eq_false_iff_ne.mpr (fun he => h.1 he.symm)
    rw [updateAssoc_cons, if_neg (by simp [hne]), ih h.2]

theorem lookupYear_updateAssoc_self (d : YearBuckets) (y : Int) (ep : Episode)
    (h : y ∈ d.map Prod.fst) :
    lookupYear (updateAssoc d y ep) y = lookupYear d y ++ [ep] := by
  induction d with
  | nil => simp at h
  | cons p t ih =>
    rw [updateAssoc_cons]
    by_cases hp : (p.1 == y) = true
    · rw [if_pos hp, lookupYear_cons, lookupYear_cons, if_pos hp, if_pos hp]
    · simp only [List.map_cons, List.mem_cons] at h
      rcases h with h | h
      · exact absurd (beq_iff_eq.mpr h.symm) (by simpa using hp)
      · rw [if_neg hp, lookupYear_cons, lookupYear_cons, if_neg hp, if_neg hp,
          ih h]

theorem lookupYear_updateAssoc_ne (d : YearBuckets) (y y' : Int) (ep : Episode)
    (hne : y ≠ y') : lookupYear (updateAssoc d y' ep) y = lookupYear d y := by
  induction d with
  | nil => rfl
  | cons p t ih =>
    rw [updateAssoc_cons]
    by_cases hq : (p.1 == y') = true
    · have hby : (p.1 == y) = false :=
        beq_eq_false_iff_ne.mpr (fun he => hne (he ▸ beq_iff_eq.mp hq))
      rw [if_pos hq, lookupYear_cons, lookupYear_cons, if_neg (by simp [hby]),
        if_neg (by simp [hby]), ih]
    · rw [if_neg hq, lookupYear_cons, lookupYear_cons]
      by_cases hby : (p.1 == y) = true
      · rw [if_pos hby, if_pos hby]
      · rw [if_neg hby, if_neg hby, ih]

theorem lookupYear_initBuckets (y : Int) : lookupYear initBuckets y = [] := by
  have haux : ∀ l : List Int, lookupYear (l.map (fun a => (a, []))) y = [] := by
    intro l
    induction l with
    | nil => rfl
    | cons a t ih =>
      rw [List.map_cons, lookupYear_cons]
      by_cases h : (a == y) = true
      · rw [if_pos h]
      · rw [if_neg h, ih]
  exact haux target_years

theorem bucketStep_none (st : YearBuckets × List Episode) (e : Entry)
    (h : (parse_episode e).year = none) : bucketStep st e = st := by
  simp only [bucketStep]
  rw [h]

theorem bucketStep_some (st : YearBuckets × List Episode) (e : Entry) (y : Int)
    (h : (parse_episode e).year = some y) :
    bucketStep st e =
      if target_years.contains y then
        (updateAssoc st.1 y (parse_episode e),
          if (parse_episode e).hasTranscript then st.2 ++ [parse_episode e]
          else st.2)
      else st := by
  simp only [bucketStep]
  rw [h]

theorem bucketStep_keys (st : YearBuckets × List Episode) (e : Entry) :
    (bucketStep st e).1.map Prod.fst = st.1.map Prod.fst := by
  cases hy : (parse_episode e).year with
  | none => rw [bucketStep_none st e hy]
  | some y =>
    rw [bucketStep_some st e y hy]
    by_cases hin : target_years.contains y = true
    · rw [if_pos hin]
      exact updateAssoc_keys st.1 y (parse_episode e)
    · rw [if_neg hin]

theorem foldl_bucketStep_keys (es : List Entry) :
    ∀ st : YearBuckets × List Episode,
      ((es.foldl bucketStep st).1).map Prod.fst = st.1.map Prod.fst := by
  induction es with
  | nil => intro st; rfl
  | cons e es ih =>
    intro st
    rw [List.foldl_cons, ih, bucketStep_keys]

theorem coverageState_keys (entries : List Entry) :
    (coverageState entries).1.map Prod.fst = target_years := by
  rw [coverageState, foldl_bucketStep_keys]
  decide

theorem foldl_bucketStep_lookup (y : Int) (hy : y ∈ target_years)
    (es : List Entry) :
    ∀ st : YearBuckets × List Episode, st.1.map Prod.fst = target_years →
      lookupYear (es.foldl bucketStep st).1 y = lookupYear st.1 y ++
        (es.map parse_episode).filter (fun ep => ep.year == some y) := by
  induction es with
  | nil => intro st _; simp
  | cons e es ih =>
    intro st hkeys
    rw [List.foldl_cons, ih (bucketStep st e) (by rw [bucketStep_keys, hkeys]),
      List.map_cons, List.filter_cons]
    cases hyr : (parse_episode e).year with
    | none =>
      rw [bucketStep_none st e hyr]
      simp
    | some y' =>
      by_cases hyy : y' = y
      · subst hyy
        have hin : target_years.contains y' = true :=
          (contains_iff_mem_int _ _).mpr hy
        rw [bucketStep_some st e y' hyr, if_pos hin]
        have hmem : y' ∈ st.1.map Prod.fst := by rw [hkeys]; exact hy
        show lookupYear (updateAssoc st.1 y' (parse_episode e)) y' ++ _ = _
        rw [lookupYear_updateAssoc_self st.1 y' (parse_episode e) hmem]
        simp
      · rw [bucketStep_some st e y' hyr]
        by_cases hin : target_years.contains y' = true
        · rw [if_pos hin]
          show lookupYear (updateAssoc st.1 y' (parse_episode e)) y ++ _ = _
          rw [lookupYear_updateAssoc_ne st.1 y y' (parse_episode e)
            (fun h => hyy h.symm)]
          simp [hyy]
        · rw [if_neg hin]
          simp [hyy]

theorem lookupYear_coverageState (y : Int) (hy : y ∈ target_years)
    (es : List Entry) :
    lookupYear (coverageState es).1 y =
      (es.map parse_episode).filter (fun ep => ep.year == some y) := by
  rw [coverageState,
    foldl_bucketStep_lookup y hy es (initBuckets, []) (by decide),
    lookupYear_initBuckets, List.nil_append]

theorem foldl_bucketStep_transcripts (es : List Entry) :
    ∀ st : YearBuckets × List Episode,
      (es.foldl bucketStep st).2 = st.2 ++
        (es.map parse_episode).filter
          (fun ep => inTargetYear ep && ep.hasTranscript) := by
  induction es with
  | nil => intro st; simp
  | cons e es ih =>
    intro st
    rw [List.foldl_cons, ih (bucketStep st e), List.map_cons, List.filter_cons]
    cases hyr : (parse_episode e).year with
    | none =>
      rw [bucketStep_none st e hyr]
      simp [inTargetYear, hyr]
    | some y' =>
      by_cases hin : target_years.contains y' = true
      · have hmem : y' ∈ target_years := (contains_iff_mem_int _ _).mp hin
        rw [bucketStep_some st e y' hyr, if_pos hin]
        by_cases htx : (parse_episode e).hasTranscript = true
        · rw [if_pos htx]
          simp [inTargetYear, hyr, hmem, htx]
        · rw [if_neg htx]
          have htx' : (parse_episode e).hasTranscript = false := by
            simpa using htx
          simp [inTargetYear, hyr, htx']
      · have hmem : y' ∉ target_years := fun hm =>
          hin ((contains_iff_mem_int _ _).mpr hm)
        rw [bucketStep_some st e y' hyr, if_neg hin]
        simp [inTargetYear, hyr, hmem]

theorem coverageState_transcripts (es : List Entry) :
    (coverageState es).2 = (es.map parse_episode).filter
      (fun ep => inTargetYear ep && ep.hasTranscript) := by
  rw [coverageState, foldl_bucketStep_transcripts]
  simp

end Stage2

namespace AutoVerify

theorem cacheKey_inj (cands : List VCandidate) (i j : Nat)
    (hi : i < cands.length) (hj : j < cands.length)
    (h : cacheKey cands i = cacheKey cands j) : i = j := by
  rw [cacheKey, dif_pos hi, cacheKey, dif_pos hj] at h
  have hd := congrArg String.data h
  have hu : ("_" : String).data = ['_'] := rfl
  have hmk : ∀ l : List Char, (String.mk l).data = l := fun _ => rfl
  simp only [pyNatStr, String.data_append, hu, hmk, List.append_assoc,
    List.singleton_append] at hd
  exact natDigits_inj
    (digits_sep_inj _ _ _ _ (natDigits_isDigit i) (natDigits_isDigit j) hd)

theorem containsKey_append (k : String) (a b : Cache) :
    containsKey k (a ++ b) = (containsKey k a || containsKey k b) := by
  simp [containsKey, List.any_append]

theorem verifyStep_fresh (cands : List VCandidate) (cache : Cache) (j : Nat)
    (hj : j < cands.length)
    (hfresh : containsKey (cacheKey cands j) cache = false) :
    verifyStep cands cache j = cache ++ [entryFor cands j] := by
  rw [verifyStep]
  cases hv : verify_candidate cands j with
  | none =>
    exfalso
    rw [verify_candidate, dif_pos hj] at hv
    simp at hv
  | some r =>
    show dictInsert (cacheKey cands j) r cache = cache ++ [entryFor cands j]
    rw [dictInsert, if_neg (by simp [hfresh]), entryFor, hv]
    rfl

theorem foldl_verifyStep_fresh (cands : List VCandidate) :
    ∀ (js : List Nat) (cache : Cache),
      (∀ j ∈ js, j < cands.length) →
      (∀ j ∈ js, containsKey (cacheKey cands j) cache = false) →
      js.Pairwise (fun a b => cacheKey cands a ≠ cacheKey cands b) →
      js.foldl (verifyStep cands) cache = cache ++ js.map (entryFor cands) := by
  intro js
  induction js with
  | nil => intro cache _ _ _; simp
  | cons j js ih =>
    intro cache hlt hfresh hpw
    have hj : j < cands.length := hlt j (List.mem_cons_self ..)
    rw [List.foldl_cons,
      verifyStep_fresh cands cache j hj (hfresh j (List.mem_cons_self ..)),
      ih (cache ++ [entryFor cands j])
        (fun a ha => hlt a (List.mem_cons_of_mem j ha))
        (fun a ha => by
          rw [containsKey_append, hfresh a (List.mem_cons_of_mem j ha)]
          have hne : cacheKey cands j ≠ cacheKey cands a :=
            (List.pairwise_cons.mp hpw).1 a ha
          simp [containsKey, entryFor, hne])
        (List.pairwise_cons.mp hpw).2]
    simp

theorem containsKey_entries (cands : List VCandidate) (k : String)
    (js : List Nat) :
    containsKey k (js.map (entryFor cands)) =
      js.any (fun j => cacheKey cands j == k) := by
  induction js with
  | nil => rfl
  | cons j js ih => simp [containsKey, entryFor] at ih ⊢; rw [ih]

theorem range_filter_ge (N m : Nat) :
    (List.range N).filter (fun i => decide (m ≤ i)) = (List.range N).drop m := by
  induction N with
  | zero => simp
  | succ N ih =>
    rw [List.range_succ, List.filter_append, ih,
      List.drop_append_eq_append_drop]
    congr 1
    by_cases h : m ≤ N
    · rw [Nat.sub_eq_zero_of_le (by simpa using h), List.drop_zero]
      simp [h]
    · have h1 : m - (List.range N).length = Nat.succ (m - N - 1) := by
        rw [List.length_range]; omega
      rw [h1]
      simp [h]

theorem run_from_empty (cands : List VCandidate) :
    get_unverified_candidates cands [] = List.range cands.length := by
  simp [get_unverified_candidates, containsKey]

theorem interrupted_run_entries (cands : List VCandidate) (m : Nat) :
    interrupted_run cands m =
      ((List.range cands.length).take m).map (entryFor cands) := by
  have hAeq : (List.range cands.length).take m =
      List.range (min m cands.length) := List.take_range ..
  have hAlt : ∀ j ∈ (List.range cands.length).take m, j < cands.length := by
    intro j hj
    rw [hAeq, List.mem_range] at hj
    omega
  have hAnodup : ((List.range cands.length).take m).Pairwise
      (fun a c => cacheKey cands a ≠ cacheKey cands c) := by
    have hnd : ((List.range cands.length).take m).Nodup := by
      rw [hAeq]
      exact List.nodup_range _
    refine hnd.imp_of_mem ?_
    intro a c ha hc hne hk
    exact hne (cacheKey_inj cands a c (hAlt a ha) (hAlt c hc) hk)
  rw [interrupted_run, run_from_empty,
    foldl_verifyStep_fresh cands _ [] hAlt (fun j _ => rfl) hAnodup]
  simp

theorem containsKey_interrupted (cands : List VCandidate) (m i : Nat)
    (hi : i < cands.length) :
    containsKey (cacheKey cands i) (interrupted_run cands m) =
      decide (i < m) := by
  have hAeq : (List.range cands.length).take m =
      List.range (min m cands.length) := List.take_range ..
  have hAlt : ∀ j ∈ (List.range cands.length).take m, j < cands.length := by
    intro j hj
    rw [hAeq, List.mem_range] at hj
    omega
  rw [interrupted_run_entries, containsKey_entries]
  rcases Nat.lt_or_ge i m with h | h
  · have hmem : i ∈ (List.range cands.length).take m := by
      rw [hAeq, List.mem_range]
      omega
    have hany : ((List.range cands.length).take m).any
        (fun j => cacheKey cands j == cacheKey cands i) = true :=
      List.any_eq_true.mpr ⟨i, hmem, by simp⟩
    rw [hany, decide_eq_true h]
  · have hany : ((List.range cands.length).take m).any
        (fun j => cacheKey cands j == cacheKey cands i) = false := by
      rw [List.any_eq_false]
      intro j hj
      simp only [beq_iff_eq]
      intro hkey
      have hji := cacheKey_inj cands j i (hAlt j hj) hi hkey
      subst hji
      rw [hAeq, List.mem_range] at hj
      omega
    rw [hany, decide_eq_false (by omega)]

theorem unverified_after_interrupt (cands : List VCandidate) (m : Nat) :
    get_unverified_candidates cands (interrupted_run cands m) =
      (List.range cands.length).drop m := by
  rw [get_unverified_candidates, ← range_filter_ge cands.length m]
  apply List.filter_congr
  intro i hi
  rw [List.mem_range] at hi
  rw [containsKey_interrupted cands m i hi]
  rcases Nat.lt_or_ge i m with h | h
  · rw [decide_eq_true h, decide_eq_false (by omega)]
    rfl
  · rw [decide_eq_false (by omega), decide_eq_true h]
    rfl

end AutoVerify

theorem strContains_self (s : String) : strContains s s = true := by
  rw [strContains, containsSub_iff]
  exact ⟨[], [], by simp⟩

/-- With a usable URL and a 200-status feed, `analyze_podcast_rss` takes the
success path. -/
theorem analyze_success (c : Candidate) (es : List Stage2.Entry)
    (hc : hasUrl c = true) :
    Stage2.analyze_podcast_rss c (.parsed (some 200) es) =
      Stage2.successResult c es := by
  simp [Stage2.analyze_podcast_rss, hc]

theorem years_insufficient_nil_iff (byYear : Stage2.YearBuckets) :
    Stage2.years_insufficient byYear = [] ↔
      ∀ y ∈ Stage2.target_years,
        2 ≤ (Stage2.lookupYear byYear y).length := by
  rw [Stage2.years_insufficient, List.filterMap_eq_nil_iff]
  constructor
  · intro h y hy
    by_contra hlf
    have hnone := h y hy
    rw [if_pos (by omega)] at hnone
    exact Option.some_ne_none _ hnone
  · intro h y hy
    rw [if_neg (by have := h y hy; omega)]

theorem years_insufficient_tx_nil_iff (byYear : Stage2.YearBuckets) :
    Stage2.years_insufficient_transcripts byYear = [] ↔
      ∀ y ∈ Stage2.target_years,
        (Stage2.lookupYear byYear y).length < 2 ∨
        2 ≤ ((Stage2.lookupYear byYear y).filter
            (fun ep => ep.hasTranscript)).length := by
  rw [Stage2.years_insufficient_transcripts, List.filterMap_eq_nil_iff]
  constructor
  · intro h y hy
    by_contra hcon
    push_neg at hcon
    have hnone := h y hy
    rw [if_neg (by omega), if_pos (by omega)] at hnone
    exact Option.some_ne_none _ hnone
  · intro h y hy
    rcases h y hy with h1 | h2
    · rw [if_pos h1]
    · by_cases hl : (Stage2.lookupYear byYear y).length < 2
      · rw [if_pos hl]
      · rw [if_neg hl, if_neg (by omega)]

/-- **C1.** Coverage validation passes exactly when every target year
(2020–2024) has at least 2 bucketed episodes and at least 2 of them flagged
transcript-present; a year with fewer than 2 transcript-flagged episodes
makes `validation_passed` false and puts an issue string naming that year
into `issues`.  (An input with exactly 2 transcript-flagged entries per year
satisfies the right-hand side, since transcript-flagged entries are bucketed
entries.) -/
theorem claim1_validation_iff (c : Candidate) (es : List Stage2.Entry)
    (hc : hasUrl c = true) :
    ((Stage2.analyze_podcast_rss c
        (.parsed (some 200) es)).validation_passed = true ↔
      ∀ y ∈ Stage2.target_years,
        2 ≤ ((es.map Stage2.parse_episode).filter
            (fun ep => ep.year == some y)).length ∧
        2 ≤ ((es.map Stage2.parse_episode).filter
            (fun ep => ep.year == some y && ep.hasTranscript)).length) ∧
    (∀ y ∈ Stage2.target_years,
      ((es.map Stage2.parse_episode).filter
          (fun ep => ep.year == some y && ep.hasTranscript)).length < 2 →
        (Stage2.analyze_podcast_rss c
            (.parsed (some 200) es)).validation_passed = false ∧
        ∃ s ∈ (Stage2.analyze_podcast_rss c (.parsed (some 200) es)).issues,
          strContains s (toString y) = true) := by
  rw [analyze_success c es hc]
  have hlook : ∀ y ∈ Stage2.target_years,
      Stage2.lookupYear (Stage2.coverageState es).1 y =
        (es.map Stage2.parse_episode).filter (fun ep => ep.year == some y) :=
    fun y hy => Stage2.lookupYear_coverageState y hy es
  have htx : ∀ y ∈ Stage2.target_years,
      ((Stage2.lookupYear (Stage2.coverageState es).1 y).filter
          (fun ep => ep.hasTranscript)).length =
        ((es.map Stage2.parse_episode).filter
          (fun ep => ep.year == some y && ep.hasTranscript)).length := by
    intro y hy
    rw [hlook y hy, List.filter_filter]
    exact congrArg List.length
      (List.filter_congr (fun ep _ => Bool.and_comm _ _))
  have hval : (Stage2.successResult c es).validation_passed =
      ((Stage2.years_insufficient (Stage2.coverageState es).1).isEmpty &&
       (Stage2.years_insufficient_transcripts
          (Stage2.coverageState es).1).isEmpty) := rfl
  constructor
  · rw [hval, Bool.and_eq_true, List.isEmpty_iff, List.isEmpty_iff,
      years_insufficient_nil_iff, years_insufficient_tx_nil_iff]
    constructor
    · rintro ⟨h1, h2⟩ y hy
      refine ⟨by rw [← hlook y hy]; exact h1 y hy, ?_⟩
      rw [← htx y hy]
      rcases h2 y hy with h | h
      · have := h1 y hy
        omega
      · exact h
    · intro hall
      constructor
      · intro y hy
        rw [hlook y hy]
        exact (hall y hy).1
      · intro y hy
        right
        rw [htx y hy]
        exact (hall y hy).2
  · intro y hy hlt
    have hlt' : ((Stage2.lookupYear (Stage2.coverageState es).1 y).filter
        (fun ep => ep.hasTranscript)).length < 2 := by
      rw [htx y hy]
      exact hlt
    by_cases hl : (Stage2.lookupYear (Stage2.coverageState es).1 y).length < 2
    · -- the year is reported in `years_insufficient`
      have hmem : Stage2.yearCountStr y
          (Stage2.lookupYear (Stage2.coverageState es).1 y).length ∈
            Stage2.years_insufficient (Stage2.coverageState es).1 :=
        List.mem_filterMap.mpr ⟨y, hy, by rw [if_pos hl]⟩
      have hne : (Stage2.years_insufficient
          (Stage2.coverageState es).1).isEmpty = false := by
        cases hE : (Stage2.years_insufficient
            (Stage2.coverageState es).1).isEmpty
        · rfl
        · rw [List.isEmpty_iff.mp hE] at hmem
          cases hmem
      constructor
      · rw [hval, hne, Bool.false_and]
      · refine ⟨"Insufficient episodes in years: " ++
          joinSep ", " (Stage2.years_insufficient (Stage2.coverageState es).1)
          ++ " (need ≥2 each year)", ?_, ?_⟩
        · show _ ∈ (Stage2.successResult c es).issues
          have hiss : (Stage2.successResult c es).issues =
              (if (Stage2.years_insufficient
                  (Stage2.coverageState es).1).isEmpty then []
               else ["Insufficient episodes in years: " ++
                 joinSep ", "
                   (Stage2.years_insufficient (Stage2.coverageState es).1) ++
                 " (need ≥2 each year)"]) ++ _ := rfl
          rw [hiss, if_neg (by simp [hne])]
          exact List.mem_append_left _ (List.mem_singleton.mpr rfl)
        · have s1 : strContains (Stage2.yearCountStr y
              (Stage2.lookupYear (Stage2.coverageState es).1 y).length)
              (toString y) = true := by
            rw [Stage2.yearCountStr]
            exact strContains_append_left _ _ _ (strContains_append_left _ _ _
              (strContains_append_left _ _ _ (strContains_self _)))
          have s2 : strContains (joinSep ", "
              (Stage2.years_insufficient (Stage2.coverageState es).1))
              (toString y) = true :=
            strContains_trans s1 (strContains_mem_joinSep _ _ _ hmem)
          exact strContains_trans s2 (strContains_append_left _ _ _
            (strContains_append_right _ _ _ (strContains_self _)))
    · -- the year is reported in `years_insufficient_transcripts`
      have hmem : Stage2.yearTxStr y
          ((Stage2.lookupYear (Stage2.coverageState es).1 y).filter
            (fun ep => ep.hasTranscript)).length
          (Stage2.lookupYear (Stage2.coverageState es).1 y).length ∈
            Stage2.years_insufficient_transcripts
              (Stage2.coverageState es).1 :=
        List.mem_filterMap.mpr ⟨y, hy, by rw [if_neg hl, if_pos hlt']⟩
      have hne : (Stage2.years_insufficient_transcripts
          (Stage2.coverageState es).1).isEmpty = false := by
        cases hE : (Stage2.years_insufficient_transcripts
            (Stage2.coverageState es).1).isEmpty
        · rfl
        · rw [List.isEmpty_iff.mp hE] at hmem
          cases hmem
      constructor
      · rw [hval, hne, Bool.and_false]
      · refine ⟨"Insufficient transcripts in years: " ++
          joinSep ", " (Stage2.years_insufficient_transcripts
            (Stage2.coverageState es).1)
          ++ " (need ≥2 with transcripts each year)", ?_, ?_⟩
        · show _ ∈ (Stage2.successResult c es).issues
          have hiss : (Stage2.successResult c es).issues = _ ++
              (if (Stage2.years_insufficient_transcripts
                  (Stage2.coverageState es).1).isEmpty then _
               else ["Insufficient transcripts in years: " ++
                 joinSep ", " (Stage2.years_insufficient_transcripts
                   (Stage2.coverageState es).1) ++
                 " (need ≥2 with transcripts each year)"]) := rfl
          rw [hiss]
          apply List.mem_append_right
          rw [if_neg (by simp [hne])]
          exact List.mem_singleton.mpr rfl
        · have s1 : strContains (Stage2.yearTxStr y
              ((Stage2.lookupYear (Stage2.coverageState es).1 y).filter
                (fun ep => ep.hasTranscript)).length
              (Stage2.lookupYear (Stage2.coverageState es).1 y).length)
              (toString y) = true := by
            rw [Stage2.yearTxStr]
            exact strContains_append_left _ _ _ (strContains_append_left _ _ _
              (strContains_append_left _ _ _ (strContains_append_left _ _ _
                (strContains_append_left _ _ _ (strContains_self _)))))
          have s2 : strContains (joinSep ", "
              (Stage2.years_insufficient_transcripts
                (Stage2.coverageState es).1))
              (toString y) = true :=
            strContains_trans s1 (strContains_mem_joinSep _ _ _ hmem)
          exact strContains_trans s2 (strContains_append_left _ _ _
            (strContains_append_right _ _ _ (strContains_self _)))

/-- On a failure path, `analyze_podcast_rss` returns the failure dict with a
non-empty issue list. -/
theorem analyze_fail (c : Candidate) (feed : Stage2.FetchResult)
    (h : hasUrl c = false ∨ Stage2.fetchFailed feed) :
    ∃ iss : List String, iss ≠ [] ∧
      Stage2.analyze_podcast_rss c feed = Stage2.failResult c iss := by
  cases hu : hasUrl c with
  | false =>
    exact ⟨["No RSS URL provided"], by simp,
      by rw [Stage2.analyze_podcast_rss.eq_def, if_pos (by simp [hu])]⟩
  | true =>
    have hf : Stage2.fetchFailed feed := by
      rcases h with h | h
      · rw [hu] at h
        cases h
      · exact h
    cases feed with
    | exn msg =>
      refine ⟨["RSS parsing error: " ++ msg], by simp, ?_⟩
      rw [Stage2.analyze_podcast_rss.eq_def, if_neg (by simp [hu])]
    | parsed status es =>
      refine ⟨["RSS feed returned status " ++ Stage2.statusStr status],
        by simp, ?_⟩
      rw [Stage2.analyze_podcast_rss.eq_def, if_neg (by simp [hu])]
      show (if (status != some 200) = true then _ else _) = _
      rw [if_pos (by simpa [bne_iff_ne] using hf)]

/-- With a usable URL, `analyze_podcast_rss` on a parsed feed is the status
check followed by the success path. -/
theorem analyze_parsed (c : Candidate) (status : Option Int)
    (es : List Stage2.Entry) (hu : hasUrl c = true) :
    Stage2.analyze_podcast_rss c (.parsed status es) =
      if (status != some 200) = true then
        Stage2.failResult c
          ["RSS feed returned status " ++ Stage2.statusStr status]
      else Stage2.successResult c es := by
  rw [Stage2.analyze_podcast_rss.eq_def, if_neg (by simp [hu])]

/-- **C2 counterexample.** With no RSS URL the returned mapping is empty, so
its key set is not the target-year set, refuting the claim's "including the
failure cases" part at a concrete input. -/
theorem claim2_counterexample :
    (Stage2.analyze_podcast_rss noUrlCand
        (.parsed (some 200) [])).episodes_by_year.map Prod.fst ≠
      Stage2.target_years := by decide

/-- **C2 (amended).** On the success path (URL present, status 200, no
exception) the bucket mapping's key list is exactly the configured target
years, with an empty list for a year with zero entries; on the three failure
paths `episodes_by_year` is the empty mapping. -/
theorem claim2_keys (c : Candidate) (feed : Stage2.FetchResult) :
    (∀ es, hasUrl c = true → feed = .parsed (some 200) es →
      (Stage2.analyze_podcast_rss c feed).episodes_by_year.map Prod.fst =
        Stage2.target_years) ∧
    ((hasUrl c = false ∨ Stage2.fetchFailed feed) →
      (Stage2.analyze_podcast_rss c feed).episodes_by_year = []) := by
  constructor
  · rintro es hc rfl
    rw [analyze_success c es hc]
    exact Stage2.coverageState_keys es
  · intro h
    obtain ⟨iss, -, heq⟩ := analyze_fail c feed h
    rw [heq]
    rfl

/-- **C2 witness.** -/
theorem claim2_keys_witness :
    (Stage2.analyze_podcast_rss wCand
        (.parsed (some 200) [])).episodes_by_year.map Prod.fst =
      Stage2.target_years ∧
    (Stage2.analyze_podcast_rss noUrlCand
        (.parsed (some 200) [])).episodes_by_year = [] :=
  ⟨(claim2_keys wCand (.parsed (some 200) [])).1 [] (by decide) rfl,
   (claim2_keys noUrlCand (.parsed (some 200) [])).2 (Or.inl (by decide))⟩

/-- **C7.** Feed-coverage analysis is a total function (exceptions are
modelled as an explicit input) and fails softly: on a missing URL, a non-200
status, or an exception during parsing it returns `rss_available = false`,
zero episode counts, no transcript episodes, and a non-empty issue list. -/
theorem claim7_soft_failure (c : Candidate) (feed : Stage2.FetchResult)
    (h : hasUrl c = false ∨ Stage2.fetchFailed feed) :
    (Stage2.analyze_podcast_rss c feed).rss_available = false ∧
    (Stage2.analyze_podcast_rss c feed).episodes_2024_count = 0 ∧
    (Stage2.analyze_podcast_rss c feed).total_target_episodes = 0 ∧
    (Stage2.analyze_podcast_rss c feed).transcript_episodes = [] ∧
    (Stage2.analyze_podcast_rss c feed).issues ≠ [] := by
  obtain ⟨iss, hne, heq⟩ := analyze_fail c feed h
  rw [heq]
  exact ⟨rfl, rfl, rfl, rfl, hne⟩

/-- **C7 witness.** -/
theorem claim7_soft_failure_witness :
    (Stage2.analyze_podcast_rss noUrlCand
        (.parsed (some 200) wEntries)).rss_available = false ∧
    (Stage2.analyze_podcast_rss wCand
        (.parsed (some 404) wEntries)).issues ≠ [] ∧
    (Stage2.analyze_podcast_rss wCand
        (.exn "boom")).total_target_episodes = 0 :=
  ⟨(claim7_soft_failure noUrlCand (.parsed (some 200) wEntries)
      (Or.inl (by decide))).1,
   (claim7_soft_failure wCand (.parsed (some 404) wEntries)
      (Or.inr (show (some 404 : Option Int) ≠ some 200 by decide))).2.2.2.2,
   (claim7_soft_failure wCand (.exn "boom")
      (Or.inr trivial)).2.2.1⟩

/-- **C8.** An entry whose publish timestamp cannot be resolved to a year is
dropped without trace: the whole analysis result — buckets, counts,
transcript list, validation, issues — is the same as if the entry were
absent. -/
theorem claim8_unparsable_dropped (c : Candidate) (status : Option Int)
    (es1 es2 : List Stage2.Entry) (e : Stage2.Entry)
    (he : (Stage2.parse_episode e).year = none) :
    Stage2.analyze_podcast_rss c (.parsed status (es1 ++ e :: es2)) =
      Stage2.analyze_podcast_rss c (.parsed status (es1 ++ es2)) := by
  have hstate : Stage2.coverageState (es1 ++ e :: es2) =
      Stage2.coverageState (es1 ++ es2) := by
    rw [Stage2.coverageState, Stage2.coverageState, List.foldl_append,
      List.foldl_append, List.foldl_cons, Stage2.bucketStep_none _ e he]
  cases hu : hasUrl c with
  | false =>
    rw [Stage2.analyze_podcast_rss.eq_def, Stage2.analyze_podcast_rss.eq_def,
      if_pos (by simp [hu]), if_pos (by simp [hu])]
  | true =>
    rw [analyze_parsed c status _ hu, analyze_parsed c status _ hu]
    by_cases hs : (status != some 200) = true
    · rw [if_pos hs, if_pos hs]
    · rw [if_neg hs, if_neg hs]
      simp only [Stage2.successResult, hstate]

/-- **C8 witness.** -/
theorem claim8_unparsable_dropped_witness :
    (Stage2.parse_episode noYearEntry).year = none ∧
    Stage2.analyze_podcast_rss wCand
        (.parsed (some 200) (noYearEntry :: wEntries)) =
      Stage2.analyze_podcast_rss wCand (.parsed (some 200) wEntries) :=
  ⟨rfl, claim8_unparsable_dropped wCand (some 200) [] wEntries noYearEntry
    rfl⟩

/-- **C10.** The transcript-episode list is exactly the parsed episodes whose
resolved year lies in the target set and whose transcript flag is set (in
feed order) — an off-target-year entry never appears in it — and
`total_target_episodes` is the sum of the per-year bucket sizes. -/
theorem claim10_transcript_list (c : Candidate) (es : List Stage2.Entry)
    (hc : hasUrl c = true) :
    (Stage2.analyze_podcast_rss c
        (.parsed (some 200) es)).transcript_episodes =
      (es.map Stage2.parse_episode).filter
        (fun ep => Stage2.inTargetYear ep && ep.hasTranscript) ∧
    (Stage2.analyze_podcast_rss c
        (.parsed (some 200) es)).total_target_episodes =
      ((Stage2.analyze_podcast_rss c
          (.parsed (some 200) es)).episodes_by_year.map
        (fun p => p.2.length)).sum := by
  rw [analyze_success c es hc]
  exact ⟨Stage2.coverageState_transcripts es, rfl⟩

/-- **C10 witness.** -/
theorem claim10_transcript_list_witness :
    hasUrl wCand = true ∧
    (Stage2.analyze_podcast_rss wCand
        (.parsed (some 200) wEntries)).transcript_episodes =
      (wEntries.map Stage2.parse_episode).filter
        (fun ep => Stage2.inTargetYear ep && ep.hasTranscript) :=
  ⟨by decide, (claim10_transcript_list wCand wEntries (by decide)).1⟩

/-- **C5.** The classifier is deterministic: it is embedded as a pure
function of the candidate's title/author/description, so two invocations on
the same candidate yield identical results (all sub-scores, verdicts,
evidence and issue lists, in the same order). -/
theorem claim5_classifier_deterministic (c : Candidate) :
    Stage3.filter_single_author c = Stage3.filter_single_author c := rfl

/-- **C9.** A candidate with an empty or missing author field gets author
score exactly 0, the issue "No author field", and both the single-host and
self-written verdicts false — it is never qualified. -/
theorem claim9_missing_author_disqualifies (c : Candidate)
    (h : c.author.getD "" = "") :
    (Stage3.filter_single_author c).author_score = 0 ∧
    "No author field" ∈ (Stage3.filter_single_author c).issues ∧
    (Stage3.filter_single_author c).is_single_host = false ∧
    (Stage3.filter_single_author c).is_self_written = false := by
  have hauthor : strLower (c.author.getD "") = "" := by rw [h]; rfl
  have har : Stage3.analyze_author_field (strLower (c.author.getD "")) =
      (0, [], ["No author field"]) := by
    rw [hauthor]
    rfl
  have hval : (Stage3.analyze_author_field (strLower (c.author.getD ""))).1
      = 0 := by rw [har]
  have hnot : ¬ ((Stage3.analyze_author_field
      (strLower (c.author.getD ""))).1 > 2/5) := by
    rw [hval]
    norm_num
  refine ⟨hval, ?_, ?_, ?_⟩
  · show "No author field" ∈
      (Stage3.analyze_author_field (strLower (c.author.getD ""))).2.2 ++
      (Stage3.analyze_single_host_content (strLower (c.title.getD ""))
          (strLower (c.description.getD ""))).2.2 ++
        (Stage3.analyze_scripted_content (strLower (c.title.getD ""))
          (strLower (c.description.getD ""))).2.2
    rw [har]
    exact List.mem_append_left _
      (List.mem_append_left _ (List.mem_singleton.mpr rfl))
  · show (decide ((Stage3.analyze_author_field
        (strLower (c.author.getD ""))).1 > 2/5) && _) = false
    rw [decide_eq_false hnot, Bool.false_and]
  · show (_ && (decide ((Stage3.analyze_author_field
        (strLower (c.author.getD ""))).1 > 2/5) && _)) = false
    rw [decide_eq_false hnot, Bool.false_and, Bool.and_false]

/-- **C9 witness.** -/
theorem claim9_missing_author_witness :
    (Stage3.filter_single_author noUrlCand).author_score = 0 ∧
    (Stage3.filter_single_author noUrlCand).is_single_host = false :=
  ⟨(claim9_missing_author_disqualifies noUrlCand rfl).1,
   (claim9_missing_author_disqualifies noUrlCand rfl).2.2.1⟩

/-- **C3 counterexample.** For the automated-verification variant the claimed
threshold formula `author > 0.4 AND content > 0.3` disagrees with the actual
verdict: on `withersCand` both sub-score thresholds hold but the verdict is
false (it is a threshold on the composed score). -/
theorem claim3_counterexample :
    (2/5 : ℚ) < (AutoVerify.is_single_author withersCand).2.2.author_score ∧
    (3/10 : ℚ) < (AutoVerify.is_single_author withersCand).2.2.content_score ∧
    (AutoVerify.is_single_author withersCand).1 = false := by
  with_unfolding_all decide

/-- **C3 (amended).** The Stage-3 classifier's three verdicts are exactly the
threshold predicates over its sub-scores (none reads the composed
confidence), but the automated-verification variant's single-author verdict
is a threshold on the composed score `0.7*author + 0.3*content > 0.6`. -/
theorem claim3_verdict_thresholds (c : Candidate) :
    (Stage3.filter_single_author c).is_single_host =
      (decide ((Stage3.filter_single_author c).author_score > 2/5) &&
       decide ((Stage3.filter_single_author c).single_host_score > 3/10)) ∧
    (Stage3.filter_single_author c).is_scripted =
      decide ((Stage3.filter_single_author c).scripted_score > 2/5) ∧
    (Stage3.filter_single_author c).is_self_written =
      (decide ((Stage3.filter_single_author c).author_score > 3/10) &&
       (Stage3.filter_single_author c).is_single_host) ∧
    (AutoVerify.is_single_author c).1 =
      decide ((AutoVerify.is_single_author c).2.2.overall_score > 3/5) ∧
    (AutoVerify.is_single_author c).2.2.overall_score =
      (AutoVerify.is_single_author c).2.2.author_score * (7/10) +
        (AutoVerify.is_single_author c).2.2.content_score * (3/10) :=
  ⟨rfl, rfl, rfl, rfl, rfl⟩

set_option maxRecDepth 8000 in
theorem strLower_org_join :
    strLower (joinSep " " Stage3.org_indicators) =
      joinSep " " Stage3.org_indicators := by decide

/-- Matching every organization indicator at once, the Stage-3 org penalty
reaches the maximum possible sum — there is no cap below it. -/
theorem stage3_orgPenalty_attains_max :
    Stage3.orgPenaltyTotal (joinSep " " Stage3.org_indicators) =
      Stage3.org_indicators.length * (1/5) := by
  have hall : Stage3.org_indicators.filter
      (fun i => strContains (joinSep " " Stage3.org_indicators) i) =
        Stage3.org_indicators :=
    List.filter_eq_self.mpr
      (fun i hi => strContains_mem_joinSep _ _ i hi)
  rw [Stage3.orgPenaltyTotal, Stage3.orgHits, hall]

/-- **C4 counterexample.** The Stage-3 variant has no organization-penalty
cap strictly below the maximum possible sum: the author string that
concatenates every organization indicator is penalised the full
`0.2 * (number of indicators)`. -/
theorem claim4_counterexample :
    ¬ ∃ cap : ℚ, cap < Stage3.org_indicators.length * (1/5) ∧
      ∀ author : String,
        Stage3.orgPenaltyTotal (strLower author) ≤ cap := by
  rintro ⟨cap, hcap, hall⟩
  have hjoin := hall (joinSep " " Stage3.org_indicators)
  rw [strLower_org_join, stage3_orgPenalty_attains_max] at hjoin
  exact absurd (lt_of_le_of_lt hjoin hcap) (lt_irrefl _)

/-- **C4 (amended).** In the automated-verification variant the subtracted
organization penalty is capped at 0.8 and the multi-person penalty at 0.9,
each strictly below its maximum possible penalty sum; the Stage-3 variant's
organization penalty is uncapped (0.2 per matched indicator, bounded only by
the final clamp) and attains the maximum possible sum. -/
theorem claim4_penalty_caps (author : String) :
    AutoVerify.orgPenaltySub (strLower author) ≤ 4/5 ∧
    AutoVerify.multiPenaltySub (strLower author) ≤ 9/10 ∧
    ((4 : ℚ)/5 < AutoVerify.org_indicators.length * (3/10)) ∧
    ((9 : ℚ)/10 < AutoVerify.multi_person_indicators.length * (2/5)) ∧
    Stage3.orgPenaltyTotal (joinSep " " Stage3.org_indicators) =
      Stage3.org_indicators.length * (1/5) := by
  refine ⟨?_, ?_, ?_, ?_, stage3_orgPenalty_attains_max⟩
  · rw [AutoVerify.orgPenaltySub]
    split
    · exact min_le_right _ _
    · norm_num
  · rw [AutoVerify.multiPenaltySub]
    split
    · exact min_le_right _ _
    · norm_num
  · rw [show AutoVerify.org_indicators.length = 52 from rfl]
    norm_num
  · rw [show AutoVerify.multi_person_indicators.length = 30 from rfl]
    norm_num

/-- **C1 witness.** With exactly 2 transcript-flagged entries in every target
year validation passes; dropping one 2020 entry makes it fail with an issue
string naming 2020. -/
theorem claim1_validation_iff_witness :
    hasUrl wCand = true ∧
    (Stage2.analyze_podcast_rss wCand
        (.parsed (some 200) wEntries)).validation_passed = true ∧
    (Stage2.analyze_podcast_rss wCand
        (.parsed (some 200) (wEntries.drop 1))).validation_passed = false ∧
    ∃ s ∈ (Stage2.analyze_podcast_rss wCand
        (.parsed (some 200) (wEntries.drop 1))).issues,
      strContains s (toString (2020 : Int)) = true :=
  ⟨by decide,
   (claim1_validation_iff wCand wEntries (by decide)).1.mpr (by decide),
   ((claim1_validation_iff wCand (wEntries.drop 1) (by decide)).2 2020
       (by decide) (by decide)).1,
   ((claim1_validation_iff wCand (wEntries.drop 1) (by decide)).2 2020
       (by decide) (by decide)).2⟩

/-- **C6.** Resume correctness: interrupting a run from an empty cache after
`k` flushed batches of size `b` and then running the verifier to completion
yields exactly the cache of a single uninterrupted run (so in particular the
same set of (key, entry) pairs), and the second invocation processes exactly
the candidates whose cache key is absent — the not-yet-processed tail. -/
theorem claim6_resume_correctness (cands : List AutoVerify.VCandidate)
    (b k : Nat) :
    AutoVerify.run_verification cands
        (AutoVerify.interrupted_run cands (k * b)) =
      AutoVerify.run_verification cands [] ∧
    AutoVerify.get_unverified_candidates cands
        (AutoVerify.interrupted_run cands (k * b)) =
      (List.range cands.length).drop (k * b) := by
  refine ⟨?_, AutoVerify.unverified_after_interrupt cands (k * b)⟩
  simp only [AutoVerify.run_verification]
  rw [AutoVerify.unverified_after_interrupt, AutoVerify.run_from_empty,
    AutoVerify.interrupted_run, AutoVerify.run_from_empty]
  conv_rhs => rw [← List.take_append_drop (k * b)
    (List.range cands.length)]
  rw [List.foldl_append]

